import Mathlib

/-!
# Verification of the sherlock URL-processing controller

A shallow embedding of the client-side polling/animation/report-parsing
controller in `src/components/url-processor.tsx`, together with theorems
checking the repository's specification claims against it.

Strings are modelled as `List Char` (JavaScript strings restricted to their
character sequence; the model covers the ASCII fragment of the JS whitespace
and case-folding behaviour, which is all the parsed reports use).
Numbers computed from parsed percentages are modelled as exact rationals;
the concrete constants the claims mention (0.80 * 0.95 = 0.76, 0.85, 0.50)
are exactly representable and exactly computed in IEEE binary64 as well,
so the rational model agrees with the JavaScript values at every claimed
equation.
-/

set_option maxRecDepth 20000

namespace Sherlock

/-- ASCII fragment of the JavaScript `\s` whitespace class
(space, tab, newline, carriage return, vertical tab, form feed). -/
def isJsWs (c : Char) : Bool :=
  c = ' ' || c = '\t' || c = '\n' || c = '\r' || c = '\x0b' || c = '\x0c'

/-- Case-sensitive character equality (plain JS `===` on characters). -/
def chEq (a b : Char) : Bool := a == b

/-- Case-insensitive character equality, as used by regexes with the `i`
flag (simple case folding; ASCII-adequate via `Char.toLower`). -/
def chEqCI (a b : Char) : Bool := a.toLower == b.toLower

/-- Predicate `startsWithBy eqv pat s`: `s` begins with `pat` under character
equivalence `eqv`. -/
def startsWithBy (eqv : Char → Char → Bool) : List Char → List Char → Bool
  | [], _ => true
  | _ :: _, [] => false
  | p :: ps, c :: cs => eqv p c && startsWithBy eqv ps cs

/-- Case-insensitive "begins with" (regex literal under `/i`). -/
def startsWithCI (pat s : List Char) : Bool := startsWithBy chEqCI pat s

/-- Case-sensitive "begins with". -/
def startsWithCS (pat s : List Char) : Bool := startsWithBy chEq pat s

/-- If `s` begins with `pat` (case-insensitively), drop it; else fail. -/
def dropStartCI? (pat s : List Char) : Option (List Char) :=
  if startsWithCI pat s then some (s.drop pat.length) else none

/-- Case-sensitive variant of `dropStartCI?`. -/
def dropStartCS? (pat s : List Char) : Option (List Char) :=
  if startsWithCS pat s then some (s.drop pat.length) else none

/-- Regex-engine position scan: try `tryAt` at position 0, 1, ... of the
input and return the first success (this is how `RegExp.exec` advances when
the pattern fails to match at the current position). -/
def scanFor (tryAt : List Char → Option α) : List Char → Option α
  | [] => tryAt []
  | c :: cs =>
    match tryAt (c :: cs) with
    | some r => some r
    | none => scanFor tryAt cs

/-- Lazy capture `([\s\S]*?)` bounded by a lookahead alternation
`(?=stop₁|stop₂|...|$)`: the shortest prefix whose remainder begins with one
of the stop patterns, or the whole input when none ever matches. -/
def takeUntilStops (eqv : Char → Char → Bool) (stops : List (List Char)) :
    List Char → List Char
  | [] => []
  | c :: cs =>
    if stops.any (fun p => startsWithBy eqv p (c :: cs)) then []
    else c :: takeUntilStops eqv stops cs

/-- JavaScript `String.prototype.trim` (ASCII whitespace fragment). -/
def jsTrim (s : List Char) : List Char :=
  ((s.dropWhile isJsWs).reverse.dropWhile isJsWs).reverse

/-- JavaScript `parseInt` on a non-empty all-digit capture `(\d+)`. -/
def digitsToNat (ds : List Char) : Nat :=
  ds.foldl (fun n c => n * 10 + (c.toNat - '0'.toNat)) 0

/-- JavaScript `String.prototype.includes` (case-sensitive substring). -/
def containsSub (pat : List Char) : List Char → Bool
  | [] => startsWithCS pat []
  | c :: cs => startsWithCS pat (c :: cs) || containsSub pat cs

/-- JavaScript `String.prototype.toLowerCase` (ASCII-adequate). -/
def toLowerList (s : List Char) : List Char := s.map Char.toLower

/-! ## Report parser data model (`url-processor.tsx` interfaces) -/

/-- Source model: `interface Source { name; url; date? }`. -/
structure Source where
  name : List Char
  url : List Char
  date : Option (List Char)
deriving DecidableEq, Repr

/-- Claim model: `interface ClaimData { claim; verified; confidence; status; evidence?; sources? }`. -/
structure ClaimData where
  claim : List Char
  verified : Bool
  confidence : ℚ
  status : List Char
  evidence : List Char
  sources : List Source
deriving DecidableEq, Repr

/-- Report model: `interface ReportData` (the fields `parseMarkdownReport` populates). -/
structure ReportData where
  summary : Option (List Char) := none
  authenticity_score : Option ℚ := none
  key_findings : List (List Char) := []
  claims : List ClaimData := []
  sentiment : Option (List Char) := none
  recommendations : List (List Char) := []
  allSources : List Source := []
deriving DecidableEq, Repr

/-! ## Section matchers

Each definition is the semantics of one regex in `parseMarkdownReport`
(`url-processor.tsx` lines 125-286). A leading-literal regex searches for
the first position where its literal matches and the rest of the pattern
then succeeds (`scanFor`); lazy captures bounded by lookaheads are
`takeUntilStops`. -/

/-- Regex `/## 1\. EXPLANATION\n([\s\S]*?)(?=\n## |$)/i` — the captured group. -/
def explanationMatch (s : List Char) : Option (List Char) :=
  (scanFor (dropStartCI? "## 1. EXPLANATION\n".data) s).map
    (takeUntilStops chEqCI ["\n## ".data])

/-- Regex `/## 3\. FINAL VERDICT\n([\s\S]*?)(?=\n## |$)/i` — the captured group. -/
def verdictMatch (s : List Char) : Option (List Char) :=
  (scanFor (dropStartCI? "## 3. FINAL VERDICT\n".data) s).map
    (takeUntilStops chEqCI ["\n## ".data])

/-- Regex `/## 2\. EVIDENCE\n([\s\S]*?)(?=\n## |$)/i` — the captured group
(used by the no-claims fallback branch). -/
def evidenceSectionMatch (s : List Char) : Option (List Char) :=
  (scanFor (dropStartCI? "## 2. EVIDENCE\n".data) s).map
    (takeUntilStops chEqCI ["\n## ".data])

/-- Tail of the three confidence regexes after their leading literal:
`sep*(\d+)\s*%` where `sep` is the bracket class (`[\s\n]` or `[:\s]`).
Greedy `sep*`, then a non-empty digit run, optional whitespace, then `%`;
regex backtracking into the greedy classes cannot produce further matches
here because no separator or whitespace character is a digit or `%`. -/
def confTailAt (sep : Char → Bool) (pat : List Char) (s : List Char) : Option Nat := do
  let r ← dropStartCI? pat s
  let r := r.dropWhile sep
  let ds := r.takeWhile Char.isDigit
  if ds.isEmpty then none
  else
    let r := (r.drop ds.length).dropWhile isJsWs
    match r with
    | '%' :: _ => some (digitsToNat ds)
    | _ => none

/-- The bracket class `[:\s]` of the second and third confidence regexes. -/
def isColonWs (c : Char) : Bool := c = ':' || isJsWs c

/-- The three confidence regexes, tried in order, first match wins:
`/## 4\. CONFIDENCE SCORE[\s\n]*(\d+)\s*%/i`, then
`/CONFIDENCE SCORE[:\s]*(\d+)\s*%/i`, then `/Confidence[:\s]*(\d+)\s*%/i`.
Returns the captured percentage. -/
def confidenceMatch (s : List Char) : Option Nat :=
  match scanFor (confTailAt isJsWs "## 4. CONFIDENCE SCORE".data) s with
  | some p => some p
  | none =>
    match scanFor (confTailAt isColonWs "CONFIDENCE SCORE".data) s with
    | some p => some p
    | none => scanFor (confTailAt isColonWs "Confidence".data) s

/-- Score field: `report.authenticity_score = parseInt(confidenceMatch[1]) / 100`. -/
def authenticityScore (s : List Char) : Option ℚ :=
  (confidenceMatch s).map fun p => (p : ℚ) / 100

/-- Baseline `const overallConfidence = report.authenticity_score || 0.85`
(JavaScript `||`: both `undefined` and `0` fall back to `0.85`). -/
def overallConfidence (s : List Char) : ℚ :=
  match authenticityScore s with
  | some q => if q = 0 then 85 / 100 else q
  | none => 85 / 100

/-! ## Claim-block scanner

`/### Claim \d+: (.*?)\n\*\*Status:\*\* (TRUE|FALSE|MISLEADING|UNVERIFIED)([\s\S]*?)(?=\n### Claim |\n## |$)/gi`
run with `exec` in a loop, each search resuming at the end of the previous
match. -/

/-- One raw match of the claim regex: captures 1 (title line), 2
(status word, uppercased by the caller — case-insensitive matching makes
the canonical uppercase word the stored value) and 3 (evidence tail). -/
structure RawClaim where
  text : List Char
  status : List Char
  evidence : List Char
deriving DecidableEq, Repr

/-- The status alternation, in the regex's order. -/
def statusWords : List (List Char) :=
  ["TRUE".data, "FALSE".data, "MISLEADING".data, "UNVERIFIED".data]

/-- Match `(TRUE|FALSE|MISLEADING|UNVERIFIED)` case-insensitively,
returning the canonical (uppercase) word and the rest. -/
def matchStatusWord (s : List Char) : Option (List Char × List Char) :=
  statusWords.findSome? fun w => (dropStartCI? w s).map fun r => (w, r)

/-- The claim regex's lookahead stops. -/
def claimStops : List (List Char) := ["\n### Claim ".data, "\n## ".data]

/-- Attempt the claim regex at the current position exactly:
`### Claim ` literal, digits, `: `, the rest of the line as capture 1
(`.` cannot cross the newline), the literal `\n**Status:** `, a status
word, then the lazy evidence capture up to the lookahead. Returns the raw
claim and the remaining input after the match (lookahead not consumed). -/
def matchClaimAt (s : List Char) : Option (RawClaim × List Char) := do
  let r1 ← dropStartCI? "### Claim ".data s
  let ds := r1.takeWhile Char.isDigit
  if ds.isEmpty then none
  else
    let r2 := r1.drop ds.length
    let r3 ← dropStartCI? ": ".data r2
    let text := r3.takeWhile (fun c => c ≠ '\n')
    let r4 := r3.drop text.length
    let r5 ← dropStartCI? "\n**Status:** ".data r4
    let (w, r6) ← matchStatusWord r5
    let ev := takeUntilStops chEqCI claimStops r6
    some ({ text := text, status := w, evidence := ev }, r6.drop ev.length)

/-- Scan forward for the next claim-regex match. -/
def findClaim? : List Char → Option (RawClaim × List Char) := scanFor matchClaimAt

/-- The `while exec` loop over the global claim regex, fuelled by the input
length (every match consumes at least one character, so this fuel always
suffices; see `matchClaimAt_rest_lt`). -/
def scanClaimsAux : Nat → List Char → List RawClaim
  | 0, _ => []
  | fuel + 1, s =>
    match findClaim? s with
    | none => []
    | some (rc, rest) => rc :: scanClaimsAux fuel rest

/-- All claim-regex matches of the input, in order. -/
def scanClaims (s : List Char) : List RawClaim := scanClaimsAux s.length s

/-! ## Source-line parser (`parseSources`, lines 134-153)

`/[-•]\s*(?:\[([^\]]+)\]\(([^)]+)\)|([^-\n]+?)\s*[-–]\s*(https?:\/\/[^\s\)]+)(?:\s*\(([^)]+)\))?)/gi`

A bullet character, greedy whitespace (backtracked if needed), then either
the markdown-link alternative or the plain `Name - URL (Date)` alternative
with a lazy name capture. -/

/-- Alternative 1: `\[([^\]]+)\]\(([^)]+)\)` at the current position.
The source pushes `{ name: m[1].trim(), url: m[2].trim() }`. -/
def tryAltA (s : List Char) : Option (Source × List Char) :=
  match s with
  | '[' :: r =>
    let nm := r.takeWhile (fun c => c ≠ ']')
    if nm.isEmpty then none
    else
      match r.drop nm.length with
      | ']' :: '(' :: r2 =>
        let u := r2.takeWhile (fun c => c ≠ ')')
        if u.isEmpty then none
        else
          match r2.drop u.length with
          | ')' :: r3 => some ({ name := jsTrim nm, url := jsTrim u, date := none }, r3)
          | _ => none
      | _ => none
  | _ => none

/-- Scheme `https?:\/\/` (case-insensitive), returning the matched characters
(original case, as a regex capture keeps them) and the rest. -/
def tryUrlScheme (s : List Char) : Option (List Char × List Char) :=
  match dropStartCI? "https://".data s with
  | some r => some (s.take 8, r)
  | none =>
    match dropStartCI? "http://".data s with
    | some r => some (s.take 7, r)
    | none => none

/-- Capture `(https?:\/\/[^\s\)]+)` — the full URL capture (greedy body). -/
def tryUrlFrom (s : List Char) : Option (List Char × List Char) := do
  let (scheme, r) ← tryUrlScheme s
  let body := r.takeWhile (fun c => !isJsWs c && c ≠ ')')
  if body.isEmpty then none else some (scheme ++ body, r.drop body.length)

/-- The optional date group `(?:\s*\(([^)]+)\))?`: on failure the group
matches nothing and the position is unchanged. -/
def tryDateOpt (s : List Char) : Option (List Char) × List Char :=
  let r := s.dropWhile isJsWs
  match r with
  | '(' :: r2 =>
    let d := r2.takeWhile (fun c => c ≠ ')')
    if d.isEmpty then (none, s)
    else
      match r2.drop d.length with
      | ')' :: r3 => (some d, r3)
      | _ => (none, s)
  | _ => (none, s)

/-- Tail `\s*[-–]\s*(URL)(date?)` — the separator and tail of alternative 2
attempted at a candidate end-of-name position. The greedy `\s*` runs
cannot be usefully backtracked (a whitespace character is neither a dash
nor the start of `http`), so they are maximal skips. -/
def tryDashUrl (s : List Char) : Option (List Char × Option (List Char) × List Char) :=
  match s.dropWhile isJsWs with
  | c :: r2 =>
    if c = '-' || c = '–' then
      match tryUrlFrom (r2.dropWhile isJsWs) with
      | some (u, r3) =>
        let (d, r4) := tryDateOpt r3
        some (u, d, r4)
      | none => none
    else none
  | [] => none

/-- Alternative 2: `([^-\n]+?)\s*[-–]\s*(https?:\/\/[^\s\)]+)(?:\s*\(...\))?`.
The lazy name capture tries to end at each position in turn (shortest
first); it may not contain `-` or a newline, and must be non-empty.
The source pushes `{ name: m[3].trim(), url: m[4].trim(), date: m[5]?.trim() }`
(the URL cannot contain whitespace, so trimming it is the identity). -/
def tryAltB (nameRev : List Char) (s : List Char) : Option (Source × List Char) :=
  match (if nameRev.isEmpty then none else tryDashUrl s) with
  | some (u, d, rest) =>
    some ({ name := jsTrim nameRev.reverse, url := u, date := d.map jsTrim }, rest)
  | none =>
    match s with
    | [] => none
    | c :: cs => if c = '-' || c = '\n' then none else tryAltB (c :: nameRev) cs

/-- The alternation `(?:A|B)` at one position: A first, then B. -/
def tryAlts (s : List Char) : Option (Source × List Char) :=
  match tryAltA s with
  | some r => some r
  | none => tryAltB [] s

/-- Backtracking of the greedy `\s*` after the bullet: try the alternation
after `k` skipped whitespace characters, for `k` from the maximal run
length down to `0`. -/
def tryWsBacktrack (s : List Char) : Nat → Option (Source × List Char)
  | 0 => tryAlts s
  | k + 1 =>
    match tryAlts (s.drop (k + 1)) with
    | some r => some r
    | none => tryWsBacktrack s k

/-- The whole source regex attempted at the current position: a `-` or `•`
bullet, then the backtracked whitespace and the alternation. -/
def trySourceAt (s : List Char) : Option (Source × List Char) :=
  match s with
  | c :: cs =>
    if c = '-' || c = '•' then tryWsBacktrack cs (cs.takeWhile isJsWs).length
    else none
  | [] => none

/-- Scan forward for the next source-regex match. -/
def findSource? : List Char → Option (Source × List Char) := scanFor trySourceAt

/-- The `while exec` loop over the global source regex (length-fuelled like
`scanClaimsAux`; every match consumes at least the bullet character). -/
def parseSourcesAux : Nat → List Char → List Source
  | 0, _ => []
  | fuel + 1, s =>
    match findSource? s with
    | none => []
    | some (src, rest) => src :: parseSourcesAux fuel rest

/-- Function `parseSources(text)` — all source matches of the text, in order. -/
def parseSources (s : List Char) : List Source := parseSourcesAux s.length s

/-! ## Per-claim processing and report assembly (lines 186-286) -/

/-- Regex `/confidence[:\s]*(\d+)\s*%/i` on a claim's evidence tail. -/
def claimConfMatch (ev : List Char) : Option Nat :=
  scanFor (confTailAt isColonWs "confidence".data) ev

/-- Per-claim confidence (lines 193-212): the block's own percentage when
stated, else the overall score discounted by status (TRUE → full,
FALSE → ×0.95, MISLEADING → ×0.85, otherwise the fixed 0.50). -/
def claimConfidence (oc : ℚ) (status ev : List Char) : ℚ :=
  match claimConfMatch ev with
  | some p => (p : ℚ) / 100
  | none =>
    if status = "TRUE".data then oc
    else if status = "FALSE".data then oc * (95 / 100)
    else if status = "MISLEADING".data then oc * (85 / 100)
    else 1 / 2

/-- Regex `/\*\*Key Evidence:\*\* ([\s\S]*?)(?=\n\*\*Sources|\n\n|$)/i` —
the captured group (trimmed by the caller). -/
def keyEvidenceMatch (s : List Char) : Option (List Char) :=
  (scanFor (dropStartCI? "**Key Evidence:** ".data) s).map
    (takeUntilStops chEqCI ["\n**Sources".data, "\n\n".data])

/-- Regex `/\*\*Sources:\*\*([\s\S]*?)(?=\n### |\n## |$)/i` — the captured group. -/
def sourcesBlockMatch (s : List Char) : Option (List Char) :=
  (scanFor (dropStartCI? "**Sources:**".data) s).map
    (takeUntilStops chEqCI ["\n### ".data, "\n## ".data])

/-- Build one `ClaimData` from a raw claim-regex match (lines 189-229).
`verified: status === 'TRUE'` is set right here, on every path. -/
def mkClaimData (oc : ℚ) (rc : RawClaim) : ClaimData :=
  { claim := jsTrim rc.text
    verified := rc.status = "TRUE".data
    status := rc.status
    confidence := claimConfidence oc rc.status rc.evidence
    evidence := match keyEvidenceMatch rc.evidence with
      | some e => jsTrim e
      | none => []
    sources := match sourcesBlockMatch rc.evidence with
      | some t => parseSources t
      | none => [] }

/-- Dedup push: `if (!report.allSources?.some(s => s.url === source.url)) push(source)`. -/
def pushDedup (acc : List Source) (s : Source) : List Source :=
  if acc.any (fun t => t.url = s.url) then acc else acc ++ [s]

/-- The body of the `while (claimMatch = claimRegex.exec(markdown))` loop:
accumulates claims, key findings (non-empty evidence only) and the
URL-deduplicated `allSources`. -/
def claimsLoop (oc : ℚ) (acc : List ClaimData × List (List Char) × List Source) :
    List RawClaim → List ClaimData × List (List Char) × List Source
  | [] => acc
  | rc :: rcs =>
    let cd := mkClaimData oc rc
    claimsLoop oc
      (acc.1 ++ [cd],
       acc.2.1 ++ (if cd.evidence.isEmpty then [] else [cd.evidence]),
       cd.sources.foldl pushDedup acc.2.2)
      rcs

/-- Regex `/\*\*Key Evidence:\*\* ([\s\S]*?)(?=\n\*\*|$)/` in the no-claims
fallback — note: case-sensitive (no `i` flag on this one). -/
def bulletKeyEvidence (s : List Char) : Option (List Char) :=
  (scanFor (dropStartCS? "**Key Evidence:** ".data) s).map
    (takeUntilStops chEq ["\n**".data])

/-- Split on `String.prototype.split(/[.;]/)`. -/
def splitDotSemi : List Char → List (List Char)
  | [] => [[]]
  | c :: cs =>
    match splitDotSemi cs with
    | [] => [[c]]
    | g :: gs => if c = '.' || c = ';' then [] :: g :: gs else (c :: g) :: gs

/-- Sentiment from the FINAL VERDICT section (lines 173-183). -/
def sentimentOf (md : List Char) : Option (List Char) :=
  match verdictMatch md with
  | none => none
  | some v =>
    let vl := toLowerList v
    if containsSub "false".data vl || containsSub "misleading".data vl then
      some "negative".data
    else if containsSub "true".data vl || containsSub "verified".data vl then
      some "positive".data
    else some "neutral".data

/-- The three canned recommendation lists (lines 263-283); the `else`
branch (positive list) also covers an absent sentiment. -/
def recommendationsOf (sentiment : Option (List Char)) : List (List Char) :=
  if sentiment = some "negative".data then
    ["Content appears to be AI-generated or manipulated".data,
     "Verify information with trusted sources before sharing".data,
     "Look for official statements or authoritative sources".data,
     "Be cautious of similar content from this source".data]
  else if sentiment = some "neutral".data then
    ["Cross-reference with multiple reliable sources".data,
     "Check for official verification or fact-check websites".data,
     "Consider the source's credibility and track record".data]
  else
    ["Content appears authentic based on available evidence".data,
     "Still verify critical claims through official sources".data,
     "Monitor for updates or corrections to the information".data]

/-- The no-claims fallback (lines 244-261): additional key findings and
(non-deduplicated!) sources scraped from the EVIDENCE section. -/
def fallbackFindings (evText : List Char) : List (List Char) :=
  match bulletKeyEvidence evText with
  | some b => ((splitDotSemi b).map jsTrim).filter (fun f => f.length > 20)
  | none => []

/-- Function `parseMarkdownReport` (lines 125-286) on a character list. -/
def parseMarkdownReportL (md : List Char) : ReportData :=
  let sentiment := sentimentOf md
  let res := claimsLoop (overallConfidence md) ([], [], []) (scanClaims md)
  let kfAll :=
    if res.1.isEmpty then
      match evidenceSectionMatch md with
      | some evText => (res.2.1 ++ fallbackFindings evText, res.2.2 ++ parseSources evText)
      | none => (res.2.1, res.2.2)
    else (res.2.1, res.2.2)
  { summary := (explanationMatch md).map jsTrim
    authenticity_score := authenticityScore md
    key_findings := kfAll.1
    claims := res.1
    sentiment := sentiment
    recommendations := recommendationsOf sentiment
    allSources := kfAll.2 }

/-- Function `parseMarkdownReport(markdown: string): ReportData`. The JavaScript
function contains no throwing operation (regex matching, `parseInt` on a
`\d+` capture and array pushes cannot throw), which the model reflects by
being a total function. -/
def parseMarkdownReport (md : String) : ReportData := parseMarkdownReportL md.data

/-! ## Content-type classification and step generation (lines 470-568) -/

/-- Union `type ContentType` (the non-null variants). -/
inductive ContentType where
  | instagramReel
  | instagramPost
  | youtubeVideo
  | blogWebsite
deriving DecidableEq, Repr

/-- JavaScript `url.includes(pat)`. -/
def jsIncludes (s pat : String) : Bool := containsSub pat.data s.data

/-- Function `identifyContentType` (lines 470-475). -/
def identifyContentType (url : String) : ContentType :=
  if jsIncludes url "instagram.com/reel" then .instagramReel
  else if jsIncludes url "instagram.com/p" then .instagramPost
  else if jsIncludes url "youtu.be" || jsIncludes url "youtube.com" then .youtubeVideo
  else .blogWebsite

/-- Function `getContentTypeLabel` (lines 477-490). -/
def getContentTypeLabel : ContentType → String
  | .instagramReel => "Instagram Reel"
  | .instagramPost => "Instagram Post"
  | .youtubeVideo => "YouTube Video"
  | .blogWebsite => "Blog Website"

/-- Step model `interface ProcessStep`. The `icon` field is a React component
reference with no data content and is omitted from the model. -/
structure ProcessStep where
  id : String
  label : String
  completed : Bool
  active : Bool
  progress : Option Nat := none
deriving DecidableEq, Repr

/-- Function `generateSteps` (lines 532-568). -/
def generateSteps (type : ContentType) : List ProcessStep :=
  let baseSteps : List ProcessStep :=
    [{ id := "parsing", label := "Parsing URL", completed := false, active := false },
     { id := "identifying", label := "Identified as " ++ getContentTypeLabel type,
       completed := false, active := false }]
  if type = .instagramReel || type = .youtubeVideo then
    baseSteps ++
      [{ id := "downloading",
         label := "Downloading " ++ (if type = .instagramReel then "reel" else "video"),
         completed := false, active := false },
       { id := "splitting", label := "Splitting into frames", completed := false, active := false },
       { id := "ocr", label := "Running OCR", completed := false, active := false },
       { id := "scanning", label := "Scanning frames", completed := false, active := false,
         progress := some 0 },
       { id := "captions", label := "Analyzing captions", completed := false, active := false },
       { id := "audio", label := "Splitting audio", completed := false, active := false },
       { id := "stt", label := "Parsing through STT", completed := false, active := false },
       { id := "report", label := "Concising into a report", completed := false, active := false }]
  else if type = .instagramPost then
    baseSteps ++
      [{ id := "downloading", label := "Downloading pic", completed := false, active := false },
       { id := "ocr", label := "Running OCR", completed := false, active := false },
       { id := "captions", label := "Analyzing captions", completed := false, active := false },
       { id := "report", label := "Concising into a report", completed := false, active := false }]
  else
    baseSteps ++
      [{ id := "crawling", label := "Crawling through the site", completed := false, active := false },
       { id := "analyzing", label := "Analyzing texts", completed := false, active := false },
       { id := "images", label := "Checking for images", completed := false, active := false },
       { id := "report", label := "Concising into a report", completed := false, active := false }]

/-! ## The background poll loop (`startPollingForResults`, lines 314-379)

One interval callback is a pure transition on the timer's own state
(attempt counter, whether its interval has been cleared, and a count of
`clearInterval` calls) together with the shared refs
(`resultsReadyRef`, `pendingResultsRef`), driven by the outcome of the
tick's database query. -/

/-- Column `url_content` as consumed by the controller (`content.result`,
`content.message`). -/
structure UrlContent where
  result : Option String := none
  message : Option String := none
deriving DecidableEq, Repr

/-- What `pendingResultsRef` can hold after a completed row: the parsed
wrapper when `content.result` is truthy (a non-empty string), otherwise
the raw content object. -/
inductive PendingResult where
  | parsed (report : ReportData) (result : String) (message : Option String)
  | raw (content : UrlContent)
deriving DecidableEq

/-- Lines 346-358: build the pending result from a completed row's content. -/
def mkPending (c : UrlContent) : PendingResult :=
  match c.result with
  | some md => if md.isEmpty then .raw c else .parsed (parseMarkdownReport md) md c.message
  | none => .raw c

/-- The shared refs both loops communicate through. -/
structure SharedRefs where
  resultsReady : Bool := false
  pending : Option PendingResult := none
deriving DecidableEq

/-- Per-interval state: the attempt counter, whether the interval is still
scheduled, and how many `clearInterval` calls have been issued for it. -/
structure IntervalState where
  attempts : Nat := 0
  active : Bool := true
  clears : Nat := 0
deriving DecidableEq, Repr

/-- Outcome of one tick's Supabase query. -/
inductive QueryOutcome where
  /-- Outcome `error.code === 'PGRST116'`: no row found. -/
  | noRow
  /-- any other query error (logged to the console and swallowed). -/
  | queryFailure
  /-- a row, with its `url_status` and `url_content` columns. -/
  | row (status : Option String) (content : Option UrlContent)
deriving DecidableEq

/-- One callback of the `startPollingForResults` interval (lines 318-376).
Note the control flow of the source: the `noRow` and `queryFailure`
branches `return` early, so the `attempts >= maxAttempts` ceiling check at
the bottom only runs on ticks whose query produced a row. -/
def pollTick : IntervalState × SharedRefs → QueryOutcome → IntervalState × SharedRefs
  | (t, refs), q =>
    if !t.active then (t, refs)
    else
      let a := t.attempts + 1
      match q with
      | .noRow => ({ t with attempts := a }, refs)
      | .queryFailure => ({ t with attempts := a }, refs)
      | .row status content =>
        let (t1, refs1) :=
          if status = some "completed" && content.isSome then
            ({ t with attempts := a, active := false, clears := t.clears + 1 },
             { resultsReady := true, pending := content.map mkPending })
          else if status = some "error" then
            ({ t with attempts := a, active := false, clears := t.clears + 1 },
             { resultsReady := true, pending := none })
          else ({ t with attempts := a }, refs)
        if a ≥ 300 then ({ t1 with active := false, clears := t1.clears + 1 }, refs1)
        else (t1, refs1)

/-- Run the poll interval over a sequence of tick outcomes, starting from
a fresh timer and fresh refs. -/
def pollRun (qs : List QueryOutcome) : IntervalState × SharedRefs :=
  qs.foldl pollTick (⟨0, true, 0⟩, ⟨false, none⟩)

/-! ## The legacy inline poll (`pollDatabaseForResults`, lines 382-468)

Same interval skeleton, but it resolves a promise; the promise resolves at
most once (the first `resolve` wins), while `clearInterval` calls are
counted as issued. -/

/-- State of the legacy poll: its interval plus the promise's resolution
(`some x` once resolved with `x`, where `x = none` models `resolve(null)`). -/
structure LegacyPollState where
  attempts : Nat := 0
  active : Bool := true
  clears : Nat := 0
  resolved : Option (Option PendingResult) := none
deriving DecidableEq

/-- First `resolve` wins. -/
def resolveOnce (r : Option (Option PendingResult)) (x : Option PendingResult) :
    Option (Option PendingResult) :=
  match r with
  | some y => some y
  | none => some x

/-- One callback of the `pollDatabaseForResults` interval (lines 394-466),
given the current shared refs. The `resultsReadyRef` short-circuit runs
before the attempt increment; `noRow` and `queryFailure` again `return`
before the ceiling check; the completed branch falls through to the
ceiling check (the source has no `return` there). -/
def legacyTick (refs : SharedRefs) (s : LegacyPollState) (q : QueryOutcome) :
    LegacyPollState :=
  if !s.active then s
  else if refs.resultsReady then
    { s with active := false, clears := s.clears + 1,
             resolved := resolveOnce s.resolved refs.pending }
  else
    let a := s.attempts + 1
    match q with
    | .noRow => { s with attempts := a }
    | .queryFailure => { s with attempts := a }
    | .row status content =>
      let s1 :=
        if status = some "completed" && content.isSome then
          { s with attempts := a, active := false, clears := s.clears + 1,
                   resolved := resolveOnce s.resolved (content.map mkPending) }
        else if status = some "error" then
          { s with attempts := a, active := false, clears := s.clears + 1,
                   resolved := resolveOnce s.resolved none }
        else { s with attempts := a }
      if a ≥ 300 then
        { s1 with active := false, clears := s1.clears + 1,
                  resolved := resolveOnce s1.resolved none }
      else s1

/-- Run the legacy poll over a sequence of tick outcomes under constant
shared refs, from a fresh state. -/
def legacyRun (refs : SharedRefs) (qs : List QueryOutcome) : LegacyPollState :=
  qs.foldl (legacyTick refs) ⟨0, true, 0, none⟩

/-! ## `submitToBackend` and the synchronous part of `processURL`
(lines 288-311 and 570-604) -/

/-- Log entry types of `addLog`. -/
inductive LogType where
  | info
  | success
  | warning
deriving DecidableEq, Repr

/-- One log entry (timestamp omitted: wall-clock time). -/
abbrev LogEntry := LogType × String

/-- The log entries `submitToBackend` produces, as a function of whether
the fire-and-forget `fetch` later fails. The info and success lines are
emitted unconditionally before the request can settle; the rejection
handler `.catch(error => { ... })` has an empty body (its `console.error`
is commented out, line 303) and appends nothing. The outer `try/catch`
(which would log a warning) only catches synchronous exceptions, and no
statement in the `try` block can throw synchronously. -/
def submitToBackendLogs (transportFails : Bool) : List LogEntry :=
  [(.info, "📡 Sending request to backend..."),
   (.success, "✓ Request sent to backend")]
    ++ (if transportFails then [] else [])

/-- Number of `fetch` calls `submitToBackend` issues: one, with no retry
on any outcome. -/
def submitToBackendFetchCalls (_transportFails : Bool) : Nat := 1

/-- The component state and refs touched by `processURL`, plus the set of
outstanding poll interval timers (one per `startPollingForResults` call,
keyed by the URL it polls for). -/
structure AppSession where
  isProcessing : Bool := false
  currentStep : Nat := 0
  scanProgress : Nat := 0
  logs : List LogEntry := []
  steps : List ProcessStep := []
  contentType : Option ContentType := none
  reportData : Option ReportData := none
  backendResponse : Option PendingResult := none
  refs : SharedRefs := {}
  pollTimers : List (String × IntervalState) := []
deriving DecidableEq

/-- The synchronous prefix of `processURL` (lines 570-600): guard on a
non-blank URL, reset the session state and the shared refs, classify,
generate steps, log, submit to the backend, and start a new poll interval.
Nothing in this code path touches the previously outstanding intervals in
`pollTimers`; the new interval is simply added alongside them. -/
def processURLStart (st : AppSession) (url : String) (transportFails : Bool) : AppSession :=
  if (jsTrim url.data).isEmpty then st
  else
    let type := identifyContentType url
    let processSteps := generateSteps type
    { st with
      isProcessing := true
      currentStep := 0
      scanProgress := 0
      reportData := none
      backendResponse := none
      refs := { resultsReady := false, pending := none }
      logs := [(.info, "🚀 Initializing content processor..."),
               (.success, "✓ Detected content type: " ++ getContentTypeLabel type),
               (.info, "📋 Generated " ++ toString processSteps.length ++ " processing steps")]
        ++ submitToBackendLogs transportFails
      contentType := some type
      steps := processSteps
      pollTimers := st.pollTimers ++ [(url, ⟨0, true, 0⟩)] }

/-- A previously started poll interval's callback firing against the
current session: the timer at index `i` runs one `pollTick` on its own
interval state and the session's shared refs. This is what a stale
callback from an earlier request does after a new `processURL` has reset
the session. -/
def firePollTimer (st : AppSession) (i : Nat) (q : QueryOutcome) : AppSession :=
  match st.pollTimers.get? i with
  | none => st
  | some (u, t) =>
    let (t2, refs2) := pollTick (t, st.refs) q
    { st with refs := refs2, pollTimers := st.pollTimers.set i (u, t2) }

/-! ## Well-formed rendered reports (for claim C2)

A "markdown string containing a well-formed report" is rendered from
structured components: an explanation body, numbered claim blocks in an
EVIDENCE section, and a confidence percentage — the exact section shapes
`parseMarkdownReport`'s regexes document. The side conditions
(`WellFormedSrc`) say the free-text components do not themselves contain
the section/block delimiters. -/

/-- Structured source of one claim block. -/
structure ClaimSrc where
  num : List Char
  text : List Char
  status : List Char
  evidence : List Char
deriving DecidableEq, Repr

/-- Block shape `### Claim N: <text>\n**Status:** <STATUS><evidence>`. -/
def renderClaimBlock (c : ClaimSrc) : List Char :=
  "### Claim ".data ++ c.num ++ ": ".data ++ c.text ++
    "\n**Status:** ".data ++ c.status ++ c.evidence

/-- Claim blocks after the first, each preceded by the joining newline. -/
def renderRest : List ClaimSrc → List Char
  | [] => []
  | c :: cs => '\n' :: (renderClaimBlock c ++ renderRest cs)

/-- All claim blocks, newline-joined. -/
def renderClaims : List ClaimSrc → List Char
  | [] => []
  | c :: cs => renderClaimBlock c ++ renderRest cs

/-- The raw claim-regex match a rendered block should produce. -/
def rawOf (c : ClaimSrc) : RawClaim := ⟨c.text, c.status, c.evidence⟩

/-- Header `## 1. EXPLANATION\n`. -/
def explHeader : List Char := "## 1. EXPLANATION\n".data

/-- Header `\n## 2. EVIDENCE\n`. -/
def evHeader : List Char := "\n## 2. EVIDENCE\n".data

/-- Header `## 4. CONFIDENCE SCORE`. -/
def confHeader : List Char := "## 4. CONFIDENCE SCORE".data

/-- Section `\n## 4. CONFIDENCE SCORE\n<digits>%`. -/
def renderTail (digits : List Char) : List Char :=
  '\n' :: (confHeader ++ '\n' :: (digits ++ "%".data))

/-- The full rendered report. -/
def renderReport (expl : List Char) (cs : List ClaimSrc) (digits : List Char) :
    List Char :=
  explHeader ++ expl ++ evHeader ++ renderClaims cs ++ renderTail digits

/-- Checker `cleanOfCI pat s`: no suffix of `s` begins a case-insensitive
occurrence of `pat` — not even an occurrence that would continue past the
end of `s` into adjacent text. -/
def cleanOfCI (pat : List Char) : List Char → Bool
  | [] => true
  | c :: cs => !startsWithCI (pat.take (c :: cs).length) (c :: cs) && cleanOfCI pat cs

/-- Side conditions making one claim block parse exactly as rendered. -/
def GoodClaimSrc (c : ClaimSrc) : Prop :=
  c.num ≠ [] ∧ c.num.all Char.isDigit = true ∧ '\n' ∉ c.text ∧
  c.status ∈ statusWords ∧
  cleanOfCI "\n### Claim ".data c.evidence = true ∧
  cleanOfCI "\n## ".data c.evidence = true

/-- Side conditions making the whole rendered report well-formed: the
explanation body contains no section delimiter, no claim-block opener is
hidden in the free text before or after the claim area, the confidence
header occurs nowhere before its own section, and the percentage is a
non-empty digit run. -/
def WellFormedSrc (expl : List Char) (cs : List ClaimSrc) (digits : List Char) : Prop :=
  cleanOfCI "\n## ".data expl = true ∧
  cleanOfCI "### Claim ".data (explHeader ++ expl ++ evHeader) = true ∧
  (∀ c ∈ cs, GoodClaimSrc c) ∧
  cleanOfCI "### Claim ".data (renderTail digits) = true ∧
  cleanOfCI confHeader
    (explHeader ++ expl ++ evHeader ++ renderClaims cs ++ ['\n']) = true ∧
  digits ≠ [] ∧ digits.all Char.isDigit = true

instance (c : ClaimSrc) : Decidable (GoodClaimSrc c) := by
  unfold GoodClaimSrc; infer_instance

instance (expl : List Char) (cs : List ClaimSrc) (digits : List Char) :
    Decidable (WellFormedSrc expl cs digits) := by
  unfold WellFormedSrc; infer_instance

/-! ## Concrete inputs used by witnesses and counterexamples -/

/-- A completed row for a stale timer's URL. -/
def staleCompletedRow : QueryOutcome :=
  .row (some "completed") (some { result := none, message := some "done" })

/-- A report with no claim blocks whose EVIDENCE section cites the same URL
twice: exercised by the fallback branch, which appends sources without
deduplication. -/
def c6DupMd : String :=
  "## 2. EVIDENCE\nStuff here.\n- [AP News](https://apnews.com/article)\n- [Reuters](https://apnews.com/article)"

/-- A report whose two claim blocks cite the identical source URL. -/
def c6TwoClaimsMd : String :=
  "### Claim 1: A\n**Status:** TRUE\n**Sources:**\n- [AP](https://ap.com/a)\n### Claim 2: B\n**Status:** FALSE\n**Sources:**\n- [AP again](https://ap.com/a)"

/-- Explanation body of the concrete well-formed report. -/
def c2Expl : List Char :=
  "  The clip shows a real event and the caption matches it.  ".data

/-- Claim blocks of the concrete well-formed report. -/
def c2Claims : List ClaimSrc :=
  [⟨"1".data, "The moon landing happened".data, "TRUE".data, " It did.".data⟩,
   ⟨"2".data, "The clip is AI-generated".data, "FALSE".data, " It is not.".data⟩]

/-- Confidence percentage digits of the concrete well-formed report. -/
def c2Digits : List Char := "87".data

/-- Overall confidence 80% and a FALSE claim block stating no per-claim
percentage. -/
def c3ExampleMd : String :=
  "## 4. CONFIDENCE SCORE\n80%\n### Claim 1: The moon is made of cheese\n**Status:** FALSE\nNo per-claim score stated here."

/-- Overall confidence 0% and a TRUE claim block stating no per-claim
percentage. -/
def c10ExampleMd : String :=
  "## 4. CONFIDENCE SCORE\n0%\n### Claim 1: Water is wet\n**Status:** TRUE\nNothing else stated here."

/-! ## Claim C1 -/

/-- C1: for every non-empty URL string, `submit` classifies it by the
documented substring-priority chain (reel, then post, then
youtu.be/youtube.com, then blog fallback) and generates exactly the fixed
step-id sequence of that variant, with every step initially neither
completed nor active. -/
theorem claim1_classification_and_steps (url : String) (_h : url ≠ "") :
    (jsIncludes url "instagram.com/reel" = true →
        identifyContentType url = .instagramReel) ∧
    (jsIncludes url "instagram.com/reel" = false →
      jsIncludes url "instagram.com/p" = true →
        identifyContentType url = .instagramPost) ∧
    (jsIncludes url "instagram.com/reel" = false →
      jsIncludes url "instagram.com/p" = false →
      (jsIncludes url "youtu.be" || jsIncludes url "youtube.com") = true →
        identifyContentType url = .youtubeVideo) ∧
    (jsIncludes url "instagram.com/reel" = false →
      jsIncludes url "instagram.com/p" = false →
      jsIncludes url "youtu.be" = false →
      jsIncludes url "youtube.com" = false →
        identifyContentType url = .blogWebsite) ∧
    (generateSteps .instagramReel).map ProcessStep.id =
      ["parsing", "identifying", "downloading", "splitting", "ocr", "scanning",
       "captions", "audio", "stt", "report"] ∧
    (generateSteps .youtubeVideo).map ProcessStep.id =
      ["parsing", "identifying", "downloading", "splitting", "ocr", "scanning",
       "captions", "audio", "stt", "report"] ∧
    (generateSteps .instagramPost).map ProcessStep.id =
      ["parsing", "identifying", "downloading", "ocr", "captions", "report"] ∧
    (generateSteps .blogWebsite).map ProcessStep.id =
      ["parsing", "identifying", "crawling", "analyzing", "images", "report"] ∧
    ∀ t : ContentType, (generateSteps t).all (fun s => !s.completed && !s.active) = true := by
  refine ⟨?_, ?_, ?_, ?_, by decide, by decide, by decide, by decide, ?_⟩
  · intro h1; simp [identifyContentType, h1]
  · intro h1 h2; simp [identifyContentType, h1, h2]
  · intro h1 h2 h3; simp [identifyContentType, h1, h2, h3]
  · intro h1 h2 h3 h4; simp [identifyContentType, h1, h2, h3, h4]
  · intro t; cases t <;> decide

/-- Witness for C1 at a concrete URL. -/
theorem claim1_witness :
    identifyContentType "https://youtu.be/dQw4w9WgXcQ" = .youtubeVideo ∧
    (generateSteps .youtubeVideo).map ProcessStep.id =
      ["parsing", "identifying", "downloading", "splitting", "ocr", "scanning",
       "captions", "audio", "stt", "report"] := by
  have h := claim1_classification_and_steps "https://youtu.be/dQw4w9WgXcQ" (by decide)
  exact ⟨h.2.2.1 (by decide) (by decide) (by decide), h.2.2.2.2.2.1⟩

/-! ## Claim C4 -/

/-- C4 (code-bug evidence): on the trace where every query returns "no row"
(`PGRST116`), the poll interval is never cleared — after 300 ticks the
attempt counter has reached the documented ceiling yet the timer is still
active with zero `clearInterval` calls, and it keeps running past 300 —
because the `noRow`/`queryFailure` branches return before the
`attempts >= maxAttempts` check. -/
theorem claim4_ceiling_check_skipped_on_norow :
    (pollRun (List.replicate 300 .noRow)).1 = ⟨300, true, 0⟩ ∧
    (pollRun (List.replicate 301 .noRow)).1 = ⟨301, true, 0⟩ ∧
    (pollRun (List.replicate 300 .noRow)).2 = ⟨false, none⟩ := by
  refine ⟨by decide, by decide, by decide⟩

/-! ## Claim C7 -/

/-- C7 (code-bug evidence): after 300 consecutive failed poll attempts with
no row ever appearing, the legacy inline poll has not stopped: its interval
is still active, nothing was resolved (the report state indeed stays null
and nothing throws, but polling does not stop), again because the early
`return` on the no-row path skips the ceiling check. -/
theorem claim7_legacy_norow_never_stops :
    (legacyRun ⟨false, none⟩ (List.replicate 300 .noRow)).active = true ∧
    (legacyRun ⟨false, none⟩ (List.replicate 300 .noRow)).attempts = 300 ∧
    (legacyRun ⟨false, none⟩ (List.replicate 300 .noRow)).clears = 0 ∧
    (legacyRun ⟨false, none⟩ (List.replicate 300 .noRow)).resolved = none := by
  refine ⟨by decide, by decide, by decide, by decide⟩

/-! ## Claim C5 -/

/-- C5 (counterexample): invoking `submit` again while the previous
request's poll timer is outstanding does NOT clear that timer — it stays
in the timer set, still active — and its stale callback then fires after
the new submit's reset and mutates the post-reset shared state (the
results-ready flag and pending result of the new session). -/
theorem claim5_cex :
    (processURLStart (processURLStart {} "https://a.example/x" false)
        "https://b.example/y" false).pollTimers.map Prod.fst =
      ["https://a.example/x", "https://b.example/y"] ∧
    ((processURLStart (processURLStart {} "https://a.example/x" false)
        "https://b.example/y" false).pollTimers.get? 0).map (fun p => p.2.active) =
      some true ∧
    (processURLStart (processURLStart {} "https://a.example/x" false)
        "https://b.example/y" false).refs = ⟨false, none⟩ ∧
    (firePollTimer (processURLStart (processURLStart {} "https://a.example/x" false)
        "https://b.example/y" false) 0 staleCompletedRow).refs.resultsReady = true ∧
    (firePollTimer (processURLStart (processURLStart {} "https://a.example/x" false)
        "https://b.example/y" false) 0 staleCompletedRow).refs.pending ≠ none := by
  refine ⟨by decide, by decide, by decide, by decide, by decide⟩

/-- C5 (amended): a new `submit` resets the shared flags, the pending
result and the report state, but does not clear any previously outstanding
timer: it only appends its own fresh poll interval to whatever timers
already exist. -/
theorem claim5_amended (st : AppSession) (url : String) (tf : Bool)
    (h : (jsTrim url.data).isEmpty = false) :
    (processURLStart st url tf).refs = ⟨false, none⟩ ∧
    (processURLStart st url tf).reportData = none ∧
    (processURLStart st url tf).backendResponse = none ∧
    (processURLStart st url tf).pollTimers = st.pollTimers ++ [(url, ⟨0, true, 0⟩)] := by
  refine ⟨?_, ?_, ?_, ?_⟩ <;> simp [processURLStart, h]

/-- Witness for C5's amended statement at a concrete session and URL. -/
theorem claim5_amended_witness :
    (processURLStart {} "https://a.example/x" false).refs = ⟨false, none⟩ ∧
    (processURLStart {} "https://a.example/x" false).pollTimers =
      [("https://a.example/x", ⟨0, true, 0⟩)] := by
  have h := claim5_amended {} "https://a.example/x" false (by decide)
  exact ⟨h.1, h.2.2.2⟩

/-! ## Claim C8 -/

/-- C8 (counterexample): when the fire-and-forget POST fails, nothing at
all is logged about the failure — the rejection handler's body is empty
(its log statement is commented out), so the logs are the same as on
success and contain no warning entry. -/
theorem claim8_cex :
    submitToBackendLogs true = submitToBackendLogs false ∧
    (submitToBackendLogs true).all (fun e => e.1 ≠ LogType.warning) = true := by
  exact ⟨by decide, by decide⟩

/-- C8 (amended): a transport failure of the fire-and-forget POST is
silently swallowed: the logs are a fixed info/success pair independent of
the outcome (no warning, nothing surfaced to the user), the request is
never retried (exactly one fetch), and the submit path — including the
poll timer it starts and the steps it generates — is unchanged by the
transport outcome. -/
theorem claim8_amended (b : Bool) :
    submitToBackendLogs b =
      [(.info, "📡 Sending request to backend..."),
       (.success, "✓ Request sent to backend")] ∧
    (∀ e ∈ submitToBackendLogs b, e.1 ≠ LogType.warning) ∧
    submitToBackendFetchCalls b = 1 ∧
    ∀ st url, processURLStart st url b = processURLStart st url true := by
  have hl : submitToBackendLogs b = submitToBackendLogs true := by cases b <;> rfl
  refine ⟨by cases b <;> rfl, ?_, rfl, ?_⟩
  · intro e he; cases b <;> simp [submitToBackendLogs] at he <;>
      rcases he with rfl | rfl <;> simp
  · intro st url; simp [processURLStart, hl]

/-! ## Structure lemmas about the claims loop and `allSources` -/

theorem claimsLoop_claims (oc : ℚ) (rcs : List RawClaim) :
    ∀ acc, (claimsLoop oc acc rcs).1 = acc.1 ++ rcs.map (mkClaimData oc) := by
  induction rcs with
  | nil => intro acc; simp [claimsLoop]
  | cons rc rcs ih => intro acc; simp [claimsLoop, ih]

/-- Projection `(parseMarkdownReport md).claims` is exactly the claim-regex matches
mapped through the per-claim builder at the overall confidence. -/
theorem parse_claims_eq (md : String) :
    (parseMarkdownReport md).claims =
      (scanClaims md.data).map (mkClaimData (overallConfidence md.data)) := by
  simp [parseMarkdownReport, parseMarkdownReportL, claimsLoop_claims]

theorem mem_pushDedup {acc : List Source} {s t : Source} (h : t ∈ acc) :
    t ∈ pushDedup acc s := by
  unfold pushDedup; split
  · exact h
  · exact List.mem_append_left _ h

theorem pushDedup_covers (acc : List Source) (s : Source) :
    ∃ t ∈ pushDedup acc s, t.url = s.url := by
  unfold pushDedup; split
  · next h =>
    rcases List.any_eq_true.mp h with ⟨t, ht, he⟩
    exact ⟨t, ht, of_decide_eq_true he⟩
  · exact ⟨s, by simp, rfl⟩

theorem pushDedup_nodup (acc : List Source) (s : Source)
    (h : (acc.map Source.url).Nodup) : ((pushDedup acc s).map Source.url).Nodup := by
  unfold pushDedup; split
  · exact h
  · next ha =>
    rw [List.map_append]
    rw [List.nodup_append]
    refine ⟨h, List.nodup_singleton _, ?_⟩
    intro u hu hu2
    simp at hu2
    rcases List.mem_map.mp hu with ⟨t, ht, rfl⟩
    have : acc.any (fun t => t.url = s.url) = true :=
      List.any_eq_true.mpr ⟨t, ht, decide_eq_true (hu2 ▸ rfl)⟩
    exact ha this

theorem mem_foldl_pushDedup (l : List Source) {t : Source} :
    ∀ acc, t ∈ acc → t ∈ l.foldl pushDedup acc := by
  induction l with
  | nil => intro acc h; simpa using h
  | cons s l ih => intro acc h; exact ih _ (mem_pushDedup h)

theorem foldl_pushDedup_covers (l : List Source) :
    ∀ acc, ∀ s ∈ l, ∃ t ∈ l.foldl pushDedup acc, t.url = s.url := by
  induction l with
  | nil => intro acc s hs; cases hs
  | cons x l ih =>
    intro acc s hs
    rcases List.mem_cons.mp hs with rfl | hs
    · rcases pushDedup_covers acc s with ⟨t, ht, he⟩
      exact ⟨t, mem_foldl_pushDedup l _ ht, he⟩
    · exact ih _ s hs

theorem foldl_pushDedup_nodup (l : List Source) :
    ∀ acc, (acc.map Source.url).Nodup →
      ((l.foldl pushDedup acc).map Source.url).Nodup := by
  induction l with
  | nil => intro acc h; simpa using h
  | cons s l ih => intro acc h; exact ih _ (pushDedup_nodup acc s h)

theorem claimsLoop_allSources_nodup (oc : ℚ) (rcs : List RawClaim) :
    ∀ acc, (acc.2.2.map Source.url).Nodup →
      ((claimsLoop oc acc rcs).2.2.map Source.url).Nodup := by
  induction rcs with
  | nil => intro acc h; simpa [claimsLoop] using h
  | cons rc rcs ih =>
    intro acc h
    exact ih _ (foldl_pushDedup_nodup _ _ h)

theorem claimsLoop_allSources_mono (oc : ℚ) (rcs : List RawClaim) {t : Source} :
    ∀ acc, t ∈ acc.2.2 → t ∈ (claimsLoop oc acc rcs).2.2 := by
  induction rcs with
  | nil => intro acc h; simpa [claimsLoop] using h
  | cons rc rcs ih =>
    intro acc h
    exact ih _ (mem_foldl_pushDedup _ _ h)

theorem claimsLoop_covers (oc : ℚ) (rcs : List RawClaim) :
    ∀ acc, ∀ rc ∈ rcs, ∀ s ∈ (mkClaimData oc rc).sources,
      ∃ t ∈ (claimsLoop oc acc rcs).2.2, t.url = s.url := by
  induction rcs with
  | nil => intro acc rc h; cases h
  | cons rc0 rcs ih =>
    intro acc rc hrc s hs
    rcases List.mem_cons.mp hrc with rfl | hrc
    · rcases foldl_pushDedup_covers (mkClaimData oc rc).sources acc.2.2 s hs with ⟨t, ht, he⟩
      exact ⟨t, claimsLoop_allSources_mono oc rcs _ ht, he⟩
    · exact ih _ rc hrc s hs

/-! ## Claim C6 -/

/-- C6 (counterexample): on a report with no claim blocks but an EVIDENCE
section citing the same URL in two source lines, the fallback branch
appends the parsed sources to `allSources` without deduplication, so the
same URL appears twice. -/
theorem claim6_cex :
    ¬ ((parseMarkdownReport c6DupMd).allSources.map Source.url).Nodup := by decide

/-- C6 (amended): whenever at least one claim block is parsed, `allSources`
is deduplicated by URL (at most one entry per distinct URL, and every URL
cited by any claim is represented); the deduplication does not extend to
the no-claims fallback path, which appends EVIDENCE-section sources
verbatim. -/
theorem claim6_amended (md : String) (h : (parseMarkdownReport md).claims ≠ []) :
    ((parseMarkdownReport md).allSources.map Source.url).Nodup ∧
    ∀ c ∈ (parseMarkdownReport md).claims, ∀ s ∈ c.sources,
      ∃ t ∈ (parseMarkdownReport md).allSources, t.url = s.url := by
  have hclaims := parse_claims_eq md
  have hne : ((claimsLoop (overallConfidence md.data) ([], [], [])
      (scanClaims md.data)).1).isEmpty = false := by
    rw [claimsLoop_claims]
    rcases hmd : (scanClaims md.data).map (mkClaimData (overallConfidence md.data)) with _ | _
    · exact absurd (hclaims.trans hmd) h
    · simp
  have hall : (parseMarkdownReport md).allSources =
      (claimsLoop (overallConfidence md.data) ([], [], []) (scanClaims md.data)).2.2 := by
    simp [parseMarkdownReport, parseMarkdownReportL, hne]
  constructor
  · rw [hall]
    exact claimsLoop_allSources_nodup _ _ _ (by simp)
  · intro c hc s hs
    rw [hclaims] at hc
    rcases List.mem_map.mp hc with ⟨rc, hrc, rfl⟩
    rw [hall]
    exact claimsLoop_covers _ _ _ rc hrc s hs

/-- Witness for C6's amended statement: two claims citing the identical
URL yield exactly one `allSources` entry. -/
theorem claim6_amended_witness :
    ((parseMarkdownReport c6TwoClaimsMd).allSources.map Source.url).Nodup ∧
    (parseMarkdownReport c6TwoClaimsMd).allSources.map Source.url =
      ["https://ap.com/a".data] := by
  refine ⟨(claim6_amended c6TwoClaimsMd ?_).1, by decide⟩
  rw [parse_claims_eq]
  intro hemp
  have : (scanClaims c6TwoClaimsMd.data).length = 2 := by decide
  simp [List.length_map] at hemp
  rw [hemp] at this
  cases this

/-! ## Claim C9 -/

/-- C9: the parser is a total function (the model is a plain function; the
source contains no throwing operation), and each missing section leaves
its field at the default: no EXPLANATION match leaves `summary` absent, no
confidence match leaves `authenticity_score` absent, no FINAL VERDICT
match leaves `sentiment` absent, no claim-regex match leaves `claims`
empty, and with additionally no EVIDENCE section the findings and sources
stay empty. -/
theorem claim9_defaults (md : String) :
    (explanationMatch md.data = none → (parseMarkdownReport md).summary = none) ∧
    (confidenceMatch md.data = none → (parseMarkdownReport md).authenticity_score = none) ∧
    (verdictMatch md.data = none → (parseMarkdownReport md).sentiment = none) ∧
    (scanClaims md.data = [] → (parseMarkdownReport md).claims = []) ∧
    (scanClaims md.data = [] → evidenceSectionMatch md.data = none →
      (parseMarkdownReport md).key_findings = [] ∧
      (parseMarkdownReport md).allSources = []) := by
  refine ⟨?_, ?_, ?_, ?_, ?_⟩
  · intro h; simp [parseMarkdownReport, parseMarkdownReportL, h]
  · intro h; simp [parseMarkdownReport, parseMarkdownReportL, authenticityScore, h]
  · intro h; simp [parseMarkdownReport, parseMarkdownReportL, sentimentOf, h]
  · intro h; simp [parseMarkdownReport, parseMarkdownReportL, h, claimsLoop]
  · intro h h2
    constructor <;> simp [parseMarkdownReport, parseMarkdownReportL, h, h2, claimsLoop]

/-! ## Claim C3 -/

/-- C3: a parsed claim's confidence is its block's own stated percentage
divided by 100 when present; otherwise it falls back on the overall
confidence with the status-dependent factor (TRUE → 1, FALSE → 0.95,
MISLEADING → 0.85, UNVERIFIED → the fixed 0.50); in particular an overall
confidence of 0.80 with a FALSE claim yields exactly 0.76 = 19/25 (the
product is also exact in IEEE binary64, so the rational model agrees with
the JavaScript value). -/
theorem claim3_confidence_rules (md : String) (oc : ℚ) (rc : RawClaim) :
    (parseMarkdownReport md).claims =
      (scanClaims md.data).map (mkClaimData (overallConfidence md.data)) ∧
    (claimConfMatch rc.evidence = none →
      (rc.status = "TRUE".data → (mkClaimData oc rc).confidence = oc) ∧
      (rc.status = "FALSE".data → (mkClaimData oc rc).confidence = oc * (95 / 100)) ∧
      (rc.status = "MISLEADING".data → (mkClaimData oc rc).confidence = oc * (85 / 100)) ∧
      (rc.status = "UNVERIFIED".data → (mkClaimData oc rc).confidence = 1 / 2)) ∧
    (∀ p, claimConfMatch rc.evidence = some p →
      (mkClaimData oc rc).confidence = (p : ℚ) / 100) ∧
    (parseMarkdownReport c3ExampleMd).claims.map ClaimData.confidence = [19 / 25] := by
  refine ⟨parse_claims_eq md, ?_, ?_, ?_⟩
  · intro h
    refine ⟨?_, ?_, ?_, ?_⟩ <;> intro hs <;>
      simp [mkClaimData, claimConfidence, h, hs]
  · intro p h; simp [mkClaimData, claimConfidence, h]
  · rw [parse_claims_eq]
    have hscan : scanClaims c3ExampleMd.data =
        [⟨"The moon is made of cheese".data, "FALSE".data,
          "\nNo per-claim score stated here.".data⟩] := by decide
    have hcm : confidenceMatch c3ExampleMd.data = some 80 := by decide
    have hoc : overallConfidence c3ExampleMd.data = 80 / 100 := by
      simp [overallConfidence, authenticityScore, hcm]
    have hno : claimConfMatch "\nNo per-claim score stated here.".data = none := by decide
    rw [hscan, hoc]
    simp [mkClaimData, claimConfidence, hno]
    norm_num

/-- Witness for C3: the FALSE-status fallback at overall confidence 0.80
evaluates to exactly 19/25 = 0.76. -/
theorem claim3_witness :
    (mkClaimData (80 / 100)
        ⟨"The moon is made of cheese".data, "FALSE".data,
         "\nNo per-claim score stated here.".data⟩).confidence = 19 / 25 := by
  have h := (claim3_confidence_rules c3ExampleMd (80 / 100)
      ⟨"The moon is made of cheese".data, "FALSE".data,
       "\nNo per-claim score stated here.".data⟩).2.1 (by decide)
  rw [h.2.1 rfl]
  norm_num

/-! ## Claim C10 -/

/-- C10: a stated overall confidence of 0% yields
`authenticity_score = 0`, but the per-claim fallback baseline treats 0 as
absent (JavaScript `||`) and substitutes the default 0.85, so a TRUE claim
with no per-claim percentage gets confidence 0.85, not 0. -/
theorem claim10_zero_score_fallback (md : String) :
    (authenticityScore md.data = some 0 → overallConfidence md.data = 85 / 100) ∧
    (parseMarkdownReport c10ExampleMd).authenticity_score = some 0 ∧
    (parseMarkdownReport c10ExampleMd).claims.map ClaimData.confidence = [85 / 100] := by
  have hcm : confidenceMatch c10ExampleMd.data = some 0 := by decide
  refine ⟨?_, ?_, ?_⟩
  · intro h; simp [overallConfidence, h]
  · simp [parseMarkdownReport, parseMarkdownReportL, authenticityScore, hcm]
  · rw [parse_claims_eq]
    have hscan : scanClaims c10ExampleMd.data =
        [⟨"Water is wet".data, "TRUE".data, "\nNothing else stated here.".data⟩] := by decide
    have hoc : overallConfidence c10ExampleMd.data = 85 / 100 := by
      simp [overallConfidence, authenticityScore, hcm]
    have hno : claimConfMatch "\nNothing else stated here.".data = none := by decide
    rw [hscan, hoc]
    simp [mkClaimData, claimConfidence, hno]

/-- Witness for C10 at the concrete 0% report. -/
theorem claim10_witness :
    overallConfidence c10ExampleMd.data = 85 / 100 := by
  refine (claim10_zero_score_fallback c10ExampleMd).1 ?_
  have hcm : confidenceMatch c10ExampleMd.data = some 0 := by decide
  simp [authenticityScore, hcm]

/-! ## Scanning lemmas (towards claim C2) -/

theorem startsWithBy_refl_append (eqv : Char → Char → Bool) (h : ∀ c, eqv c c = true) :
    ∀ (p t : List Char), startsWithBy eqv p (p ++ t) = true := by
  intro p t
  induction p with
  | nil => rfl
  | cons c p ih => simp [startsWithBy, h c, ih]

theorem startsWithCI_self_append (p t : List Char) : startsWithCI p (p ++ t) = true :=
  startsWithBy_refl_append chEqCI (fun c => by simp [chEqCI]) p t

theorem dropStartCI?_self (p t : List Char) : dropStartCI? p (p ++ t) = some t := by
  simp [dropStartCI?, startsWithCI_self_append, List.drop_left]

theorem startsWithBy_take_of_append (eqv : Char → Char → Bool) :
    ∀ (s p t : List Char), startsWithBy eqv p (s ++ t) = true →
      startsWithBy eqv (p.take s.length) s = true := by
  intro s
  induction s with
  | nil => intro p t _; rfl
  | cons c s ih =>
    intro p t h
    cases p with
    | nil => rfl
    | cons q p =>
      rw [List.cons_append, startsWithBy] at h
      simp only [Bool.and_eq_true] at h
      obtain ⟨h1, h2⟩ := h
      simp only [List.length_cons, List.take_succ_cons, startsWithBy, h1,
        Bool.true_and]
      exact ih p t h2

theorem startsWithBy_append_of_le (eqv : Char → Char → Bool) :
    ∀ (p s t : List Char), p.length ≤ s.length →
      startsWithBy eqv p (s ++ t) = startsWithBy eqv p s := by
  intro p
  induction p with
  | nil => intro s t _; rfl
  | cons q p ih =>
    intro s t hl
    cases s with
    | nil => simp at hl
    | cons c s =>
      rw [List.cons_append, startsWithBy, startsWithBy,
        ih s t (by simpa using hl)]

theorem cleanOf_noStart (pat : List Char) :
    ∀ (a : List Char), cleanOfCI pat a = true → ∀ i, i < a.length → ∀ b,
      startsWithCI pat ((a ++ b).drop i) = false := by
  intro a
  induction a with
  | nil => intro _ i hi; simp at hi
  | cons c a ih =>
    intro hc i hi b
    rw [cleanOfCI] at hc
    simp only [Bool.and_eq_true] at hc
    obtain ⟨h0, htail⟩ := hc
    cases i with
    | zero =>
      rw [List.drop_zero]
      cases hx : startsWithCI pat ((c :: a) ++ b)
      · rfl
      · exfalso
        have h4 : startsWithCI (pat.take (c :: a).length) (c :: a) = true :=
          startsWithBy_take_of_append chEqCI (c :: a) pat b hx
        rw [h4] at h0
        exact Bool.false_ne_true h0
    | succ i =>
      rw [List.cons_append, List.drop_succ_cons]
      exact ih htail i (by simpa using hi) b

theorem scanFor_eq_some {α : Type} (tryAt : List Char → Option α) (s : List Char)
    {r : α} (h : tryAt s = some r) : scanFor tryAt s = some r := by
  cases s with
  | nil => simpa [scanFor] using h
  | cons c cs => simp [scanFor, h]

theorem scanFor_append {α : Type} (tryAt : List Char → Option α) :
    ∀ (a b : List Char), (∀ i, i < a.length → tryAt ((a ++ b).drop i) = none) →
      scanFor tryAt (a ++ b) = scanFor tryAt b := by
  intro a
  induction a with
  | nil => intro b _; rfl
  | cons c a ih =>
    intro b h
    rw [List.cons_append, scanFor]
    have h0 := h 0 (by simp)
    rw [List.drop_zero, List.cons_append] at h0
    rw [h0]
    exact ih b fun i hi => by
      have := h (i + 1) (by simpa using Nat.succ_lt_succ hi)
      rwa [List.cons_append, List.drop_succ_cons] at this

theorem scanFor_none {α : Type} (tryAt : List Char → Option α) :
    ∀ (s : List Char), (∀ i, tryAt (s.drop i) = none) → scanFor tryAt s = none := by
  intro s
  induction s with
  | nil => intro h; exact h 0
  | cons c cs ih =>
    intro h
    rw [scanFor]
    have h0 := h 0
    rw [List.drop_zero] at h0
    rw [h0]
    exact ih fun i => by have := h (i + 1); rwa [List.drop_succ_cons] at this

theorem matchClaimAt_none {s : List Char}
    (h : startsWithCI "### Claim ".data s = false) : matchClaimAt s = none := by
  simp [matchClaimAt, dropStartCI?, h]

theorem confTailAt_none (sep : Char → Bool) (pat : List Char) {s : List Char}
    (h : startsWithCI pat s = false) : confTailAt sep pat s = none := by
  simp [confTailAt, dropStartCI?, h]

theorem takeWhile_append_eq (p : Char → Bool) :
    ∀ (a : List Char) (x : Char) (b : List Char), a.all p = true → p x = false →
      (a ++ x :: b).takeWhile p = a := by
  intro a
  induction a with
  | nil => intro x b _ hx; simp [List.takeWhile_cons, hx]
  | cons c a ih =>
    intro x b ha hx
    rw [List.all_cons] at ha
    simp only [Bool.and_eq_true] at ha
    obtain ⟨h1, h2⟩ := ha
    simp [List.takeWhile_cons, h1, ih _ _ h2 hx]

theorem takeUntilStops_append (stops : List (List Char)) :
    ∀ (a b : List Char),
      (stops.any fun p => startsWithCI p b) = true →
      (∀ p ∈ stops, cleanOfCI p a = true) →
      takeUntilStops chEqCI stops (a ++ b) = a := by
  intro a
  induction a with
  | nil =>
    intro b hb _
    cases b with
    | nil => rfl
    | cons c cs =>
      have hb2 : (stops.any fun p => startsWithBy chEqCI p (c :: cs)) = true := hb
      simp only [List.nil_append, takeUntilStops, hb2, if_true]
  | cons c a ih =>
    intro b hb hcl
    have hfalse : (stops.any fun p => startsWithBy chEqCI p (c :: (a ++ b))) = false := by
      rw [List.any_eq_false]
      intro p hp
      have h2 := cleanOf_noStart p (c :: a) (hcl p hp) 0 (by simp) b
      rw [List.drop_zero, List.cons_append] at h2
      rw [Bool.not_eq_true]
      exact h2
    rw [List.cons_append]
    simp only [takeUntilStops, hfalse, Bool.false_eq_true, if_false]
    congr 1
    refine ih b hb fun p hp => ?_
    have h3 : (!startsWithCI (p.take (c :: a).length) (c :: a) && cleanOfCI p a) = true :=
      hcl p hp
    simp only [Bool.and_eq_true] at h3
    exact h3.2

theorem startsWithCI_append_of_le (p s t : List Char) (h : p.length ≤ s.length) :
    startsWithCI p (s ++ t) = startsWithCI p s :=
  startsWithBy_append_of_le chEqCI p s t h

theorem findSome?_cons_some {α β : Type} (f : α → Option β) (a : α) (as : List α)
    {b : β} (h : f a = some b) : (a :: as).findSome? f = some b := by
  simp [List.findSome?_cons, h]

theorem findSome?_cons_none {α β : Type} (f : α → Option β) (a : α) (as : List α)
    (h : f a = none) : (a :: as).findSome? f = as.findSome? f := by
  simp [List.findSome?_cons, h]

theorem dropStartCI?_none (pat s : List Char) (h : startsWithCI pat s = false) :
    dropStartCI? pat s = none := by
  simp [dropStartCI?, h]

theorem matchStatusWord_render (w : List Char) (hw : w ∈ statusWords) (r : List Char) :
    matchStatusWord (w ++ r) = some (w, r) := by
  simp only [statusWords, List.mem_cons, List.not_mem_nil, or_false] at hw
  simp only [matchStatusWord, statusWords]
  rcases hw with rfl | rfl | rfl | rfl
  · exact findSome?_cons_some _ _ _ (by rw [dropStartCI?_self]; rfl)
  · rw [findSome?_cons_none _ _ _ (by
      rw [dropStartCI?_none _ _ (by
        rw [startsWithCI_append_of_le _ _ _ (by decide)]; decide)]; rfl)]
    exact findSome?_cons_some _ _ _ (by rw [dropStartCI?_self]; rfl)
  · rw [findSome?_cons_none _ _ _ (by
      rw [dropStartCI?_none _ _ (by
        rw [startsWithCI_append_of_le _ _ _ (by decide)]; decide)]; rfl)]
    rw [findSome?_cons_none _ _ _ (by
      rw [dropStartCI?_none _ _ (by
        rw [startsWithCI_append_of_le _ _ _ (by decide)]; decide)]; rfl)]
    exact findSome?_cons_some _ _ _ (by rw [dropStartCI?_self]; rfl)
  · rw [findSome?_cons_none _ _ _ (by
      rw [dropStartCI?_none _ _ (by
        rw [startsWithCI_append_of_le _ _ _ (by decide)]; decide)]; rfl)]
    rw [findSome?_cons_none _ _ _ (by
      rw [dropStartCI?_none _ _ (by
        rw [startsWithCI_append_of_le _ _ _ (by decide)]; decide)]; rfl)]
    rw [findSome?_cons_none _ _ _ (by
      rw [dropStartCI?_none _ _ (by
        rw [startsWithCI_append_of_le _ _ _ (by decide)]; decide)]; rfl)]
    exact findSome?_cons_some _ _ _ (by rw [dropStartCI?_self]; rfl)

theorem matchClaimAt_render (c : ClaimSrc) (hg : GoodClaimSrc c) (tail : List Char)
    (htail : (claimStops.any fun p => startsWithCI p tail) = true) :
    matchClaimAt (renderClaimBlock c ++ tail) = some (rawOf c, tail) := by
  obtain ⟨hnum, hdig, htext, hstat, hcl1, hcl2⟩ := hg
  have hshape : renderClaimBlock c ++ tail =
      "### Claim ".data ++ (c.num ++ (": ".data ++ (c.text ++
        ("\n**Status:** ".data ++ (c.status ++ (c.evidence ++ tail)))))) := by
    simp [renderClaimBlock, List.append_assoc]
  have h1 : dropStartCI? "### Claim ".data (renderClaimBlock c ++ tail) =
      some (c.num ++ (": ".data ++ (c.text ++
        ("\n**Status:** ".data ++ (c.status ++ (c.evidence ++ tail)))))) := by
    rw [hshape, dropStartCI?_self]
  have h2 : (c.num ++ (": ".data ++ (c.text ++
      ("\n**Status:** ".data ++ (c.status ++ (c.evidence ++ tail)))))).takeWhile
        Char.isDigit = c.num := by
    exact takeWhile_append_eq _ c.num ':'
      (' ' :: (c.text ++ ("\n**Status:** ".data ++ (c.status ++ (c.evidence ++ tail)))))
      hdig (by decide)
  have hne : c.num.isEmpty = false := by
    cases hn : c.num
    · exact absurd hn hnum
    · rfl
  have h3 : (c.num ++ (": ".data ++ (c.text ++
      ("\n**Status:** ".data ++ (c.status ++ (c.evidence ++ tail)))))).drop
        c.num.length =
      ": ".data ++ (c.text ++
        ("\n**Status:** ".data ++ (c.status ++ (c.evidence ++ tail)))) :=
    List.drop_left _ _
  have h4 : dropStartCI? ": ".data (": ".data ++ (c.text ++
      ("\n**Status:** ".data ++ (c.status ++ (c.evidence ++ tail))))) =
      some (c.text ++ ("\n**Status:** ".data ++ (c.status ++ (c.evidence ++ tail)))) :=
    dropStartCI?_self _ _
  have htext2 : c.text.all (fun ch => ch ≠ '\n') = true := by
    rw [List.all_eq_true]
    intro x hx
    have hne2 : x ≠ '\n' := fun hh => htext (hh ▸ hx)
    simpa using hne2
  have h5 : (c.text ++ ("\n**Status:** ".data ++
      (c.status ++ (c.evidence ++ tail)))).takeWhile (fun ch => ch ≠ '\n') = c.text := by
    exact takeWhile_append_eq _ c.text '\n'
      ("**Status:** ".data ++ (c.status ++ (c.evidence ++ tail))) htext2 (by decide)
  have h6 : (c.text ++ ("\n**Status:** ".data ++
      (c.status ++ (c.evidence ++ tail)))).drop c.text.length =
      "\n**Status:** ".data ++ (c.status ++ (c.evidence ++ tail)) :=
    List.drop_left _ _
  have h7 : dropStartCI? "\n**Status:** ".data
      ("\n**Status:** ".data ++ (c.status ++ (c.evidence ++ tail))) =
      some (c.status ++ (c.evidence ++ tail)) := dropStartCI?_self _ _
  have h8 : matchStatusWord (c.status ++ (c.evidence ++ tail)) =
      some (c.status, c.evidence ++ tail) := matchStatusWord_render c.status hstat _
  have h9 : takeUntilStops chEqCI claimStops (c.evidence ++ tail) = c.evidence := by
    refine takeUntilStops_append claimStops c.evidence tail htail ?_
    intro p hp
    simp only [claimStops, List.mem_cons, List.not_mem_nil, or_false] at hp
    rcases hp with rfl | rfl
    · exact hcl1
    · exact hcl2
  have h10 : (c.evidence ++ tail).drop c.evidence.length = tail := List.drop_left _ _
  simp only [matchClaimAt, h1, Option.bind_eq_bind, Option.some_bind, h2, hne,
    Bool.false_eq_true, if_false, h3, h4, h5, h6, h7, h8, h9, h10, rawOf]

theorem cleanOf_findClaim?_none (s : List Char)
    (h : cleanOfCI "### Claim ".data s = true) : findClaim? s = none := by
  apply scanFor_none
  intro i
  by_cases hi : i < s.length
  · apply matchClaimAt_none
    have h2 := cleanOf_noStart _ s h i hi []
    rwa [List.append_nil] at h2
  · rw [List.drop_eq_nil_of_le (by omega)]
    exact matchClaimAt_none rfl

theorem scanClaimsAux_of_none (s : List Char) (h : findClaim? s = none) :
    ∀ fuel, scanClaimsAux fuel s = [] := by
  intro fuel
  cases fuel with
  | zero => rfl
  | succ f => simp [scanClaimsAux, h]

theorem stops_any_rest (cs : List ClaimSrc) (digits : List Char) :
    (claimStops.any fun p => startsWithCI p (renderRest cs ++ renderTail digits)) = true := by
  cases cs with
  | nil =>
    have e : renderTail digits =
        "\n## ".data ++ ("4. CONFIDENCE SCORE".data ++ ('\n' :: (digits ++ "%".data))) := rfl
    simp only [renderRest, List.nil_append, claimStops, List.any_cons, List.any_nil]
    rw [e, startsWithCI_self_append]
    simp
  | cons c cs =>
    have hb : renderRest (c :: cs) ++ renderTail digits =
        "\n### Claim ".data ++ (c.num ++ (": ".data ++ (c.text ++
          ("\n**Status:** ".data ++ (c.status ++ (c.evidence ++
            (renderRest cs ++ renderTail digits))))))) := by
      simp [renderRest, renderClaimBlock, List.append_assoc]
    simp only [claimStops, List.any_cons, List.any_nil]
    rw [hb, startsWithCI_self_append]
    simp

theorem scanClaimsAux_renderRest (digits : List Char)
    (hd : cleanOfCI "### Claim ".data (renderTail digits) = true) :
    ∀ (cs : List ClaimSrc) (fuel : Nat), (∀ c ∈ cs, GoodClaimSrc c) →
      (renderRest cs ++ renderTail digits).length ≤ fuel →
      scanClaimsAux fuel (renderRest cs ++ renderTail digits) = cs.map rawOf := by
  intro cs
  induction cs with
  | nil =>
    intro fuel _ _
    simp only [renderRest, List.nil_append, List.map_nil]
    exact scanClaimsAux_of_none _ (cleanOf_findClaim?_none _ hd) fuel
  | cons c cs ih =>
    intro fuel hgood hlen
    have hb : renderRest (c :: cs) ++ renderTail digits =
        '\n' :: (renderClaimBlock c ++ (renderRest cs ++ renderTail digits)) := by
      simp [renderRest, List.append_assoc]
    rw [hb] at hlen ⊢
    cases fuel with
    | zero => simp at hlen
    | succ f =>
      have h0 : matchClaimAt
          ('\n' :: (renderClaimBlock c ++ (renderRest cs ++ renderTail digits))) = none :=
        matchClaimAt_none rfl
      have hfind : findClaim?
          ('\n' :: (renderClaimBlock c ++ (renderRest cs ++ renderTail digits))) =
          some (rawOf c, renderRest cs ++ renderTail digits) := by
        simp only [findClaim?, scanFor, h0]
        exact scanFor_eq_some _ _
          (matchClaimAt_render c (hgood c (by simp)) _ (stops_any_rest cs digits))
      rw [scanClaimsAux, hfind]
      simp only [List.map_cons]
      congr 1
      refine ih f (fun x hx => hgood x (by simp [hx])) ?_
      simp only [List.length_cons, List.length_append] at hlen
      simp only [List.length_append]
      omega

theorem scanClaims_render (expl digits : List Char) (cs : List ClaimSrc)
    (h2 : cleanOfCI "### Claim ".data (explHeader ++ expl ++ evHeader) = true)
    (hgood : ∀ c ∈ cs, GoodClaimSrc c)
    (hd : cleanOfCI "### Claim ".data (renderTail digits) = true) :
    scanClaims (renderReport expl cs digits) = cs.map rawOf := by
  have hmd : renderReport expl cs digits =
      (explHeader ++ expl ++ evHeader) ++ (renderClaims cs ++ renderTail digits) := by
    simp [renderReport, List.append_assoc]
  have hskip : ∀ i, i < (explHeader ++ expl ++ evHeader).length →
      matchClaimAt ((((explHeader ++ expl ++ evHeader)) ++
        (renderClaims cs ++ renderTail digits)).drop i) = none := by
    intro i hi
    exact matchClaimAt_none
      (cleanOf_noStart _ _ h2 i hi (renderClaims cs ++ renderTail digits))
  cases cs with
  | nil =>
    have hnone : findClaim? (renderReport expl [] digits) = none := by
      rw [hmd]
      simp only [findClaim?]
      rw [scanFor_append _ _ _ hskip]
      simp only [renderClaims, List.nil_append]
      exact cleanOf_findClaim?_none _ hd
    simp only [scanClaims, List.map_nil]
    exact scanClaimsAux_of_none _ hnone _
  | cons c cs =>
    have hbody : renderClaims (c :: cs) ++ renderTail digits =
        renderClaimBlock c ++ (renderRest cs ++ renderTail digits) := by
      simp [renderClaims, List.append_assoc]
    have hfind : findClaim? (renderReport expl (c :: cs) digits) =
        some (rawOf c, renderRest cs ++ renderTail digits) := by
      rw [hmd]
      simp only [findClaim?]
      rw [scanFor_append _ _ _ hskip]
      rw [hbody]
      exact scanFor_eq_some _ _
        (matchClaimAt_render c (hgood c (by simp)) _ (stops_any_rest cs digits))
    have h18 : explHeader.length = 18 := by decide
    have hsum : (renderReport expl (c :: cs) digits).length =
        (explHeader.length + expl.length + evHeader.length) +
          ((renderClaimBlock c).length + (renderRest cs ++ renderTail digits).length) := by
      rw [hmd, hbody]
      simp [List.length_append]
      omega
    obtain ⟨f, hf⟩ : ∃ f, (renderReport expl (c :: cs) digits).length = f + 1 :=
      ⟨(renderReport expl (c :: cs) digits).length - 1, by omega⟩
    rw [scanClaims, hf, scanClaimsAux, hfind]
    simp only [List.map_cons]
    congr 1
    refine scanClaimsAux_renderRest digits hd cs f
      (fun x hx => hgood x (by simp [hx])) ?_
    omega

theorem parse_summary_eq (md : String) :
    (parseMarkdownReport md).summary = (explanationMatch md.data).map jsTrim := by
  simp [parseMarkdownReport, parseMarkdownReportL]

theorem parse_score_eq (md : String) :
    (parseMarkdownReport md).authenticity_score = authenticityScore md.data := by
  simp [parseMarkdownReport, parseMarkdownReportL]

theorem explanationMatch_render (expl digits : List Char) (cs : List ClaimSrc)
    (h1 : cleanOfCI "\n## ".data expl = true) :
    explanationMatch (renderReport expl cs digits) = some expl := by
  have hmd : renderReport expl cs digits =
      "## 1. EXPLANATION\n".data ++
        (expl ++ (evHeader ++ (renderClaims cs ++ renderTail digits))) := by
    simp [renderReport, explHeader, List.append_assoc]
  rw [explanationMatch, hmd]
  rw [scanFor_eq_some _ _ (dropStartCI?_self _ _)]
  have hstop : ((["\n## ".data] : List (List Char)).any fun p =>
      startsWithCI p (evHeader ++ (renderClaims cs ++ renderTail digits))) = true := by
    have e : evHeader ++ (renderClaims cs ++ renderTail digits) =
        "\n## ".data ++ ("2. EVIDENCE\n".data ++ (renderClaims cs ++ renderTail digits)) := rfl
    simp only [List.any_cons, List.any_nil]
    rw [e, startsWithCI_self_append]
    simp
  rw [show Option.map (takeUntilStops chEqCI ["\n## ".data])
      (some (expl ++ (evHeader ++ (renderClaims cs ++ renderTail digits)))) =
      some (takeUntilStops chEqCI ["\n## ".data]
        (expl ++ (evHeader ++ (renderClaims cs ++ renderTail digits)))) from rfl]
  congr 1
  exact takeUntilStops_append _ _ _ hstop (by intro p hp; simp at hp; rw [hp]; exact h1)

theorem isJsWs_isDigit_false {c : Char} (h : Char.isDigit c = true) :
    isJsWs c = false := by
  cases hc : isJsWs c
  · rfl
  · exfalso
    simp [isJsWs] at hc
    rcases hc with ((((hc | hc) | hc) | hc) | hc) | hc <;> subst hc <;>
      exact absurd h (by decide)

theorem confTailAt_render (digits : List Char) (hne : digits ≠ [])
    (hdig : digits.all Char.isDigit = true) :
    confTailAt isJsWs confHeader (confHeader ++ ('\n' :: (digits ++ "%".data))) =
      some (digitsToNat digits) := by
  have s1 : dropStartCI? confHeader (confHeader ++ ('\n' :: (digits ++ "%".data))) =
      some ('\n' :: (digits ++ "%".data)) := dropStartCI?_self _ _
  have s2 : ('\n' :: (digits ++ "%".data)).dropWhile isJsWs = digits ++ "%".data := by
    rw [List.dropWhile_cons]
    simp only [show isJsWs '\n' = true from rfl, if_true]
    cases hdg : digits with
    | nil => exact absurd hdg hne
    | cons d ds =>
      have hd : Char.isDigit d = true := by
        rw [hdg, List.all_cons] at hdig
        exact (Bool.and_eq_true _ _ ▸ hdig).1
      rw [List.cons_append, List.dropWhile_cons, isJsWs_isDigit_false hd]
      simp
  have s3 : (digits ++ "%".data).takeWhile Char.isDigit = digits :=
    takeWhile_append_eq _ digits '%' [] hdig (by decide)
  have s4 : digits.isEmpty = false := by
    cases hdg : digits
    · exact absurd hdg hne
    · rfl
  have s5 : (digits ++ "%".data).drop digits.length = "%".data := List.drop_left _ _
  simp only [confTailAt, s1, Option.bind_eq_bind, Option.some_bind, s2, s3, s4,
    Bool.false_eq_true, if_false, s5]
  rfl

theorem confidenceMatch_render (expl digits : List Char) (cs : List ClaimSrc)
    (hc : cleanOfCI confHeader
      (explHeader ++ expl ++ evHeader ++ renderClaims cs ++ ['\n']) = true)
    (hne : digits ≠ []) (hdig : digits.all Char.isDigit = true) :
    confidenceMatch (renderReport expl cs digits) = some (digitsToNat digits) := by
  have hmd : renderReport expl cs digits =
      (explHeader ++ expl ++ evHeader ++ renderClaims cs ++ ['\n']) ++
        (confHeader ++ ('\n' :: (digits ++ "%".data))) := by
    simp [renderReport, renderTail, List.append_assoc]
  have hp1 : scanFor (confTailAt isJsWs "## 4. CONFIDENCE SCORE".data)
      (renderReport expl cs digits) = some (digitsToNat digits) := by
    show scanFor (confTailAt isJsWs confHeader)
      (renderReport expl cs digits) = some (digitsToNat digits)
    rw [hmd]
    rw [scanFor_append (confTailAt isJsWs confHeader)
      (explHeader ++ expl ++ evHeader ++ renderClaims cs ++ ['\n'])
      (confHeader ++ ('\n' :: (digits ++ "%".data)))
      (fun i hi => confTailAt_none _ _ (cleanOf_noStart _ _ hc i hi _))]
    exact scanFor_eq_some _ _ (confTailAt_render digits hne hdig)
  simp only [confidenceMatch, hp1]

/-! ## Claim C2 -/

/-- C2: on every well-formed rendered report, the parser recovers the
verbatim trimmed EXPLANATION body as `summary`, the stated CONFIDENCE
SCORE percentage divided by 100 as `authenticity_score`, and exactly one
claim per `### Claim N:` block carrying that block's stated status; and on
every input whatsoever, every parsed claim satisfies
`verified == (status == TRUE)`. -/
theorem claim2_wellformed_report_parse (expl digits : List Char) (cs : List ClaimSrc)
    (hwf : WellFormedSrc expl cs digits) :
    (parseMarkdownReport (String.mk (renderReport expl cs digits))).summary =
      some (jsTrim expl) ∧
    (parseMarkdownReport (String.mk (renderReport expl cs digits))).authenticity_score =
      some ((digitsToNat digits : ℚ) / 100) ∧
    (parseMarkdownReport (String.mk (renderReport expl cs digits))).claims.map
        (fun cd => (cd.claim, cd.status)) =
      cs.map (fun c => (jsTrim c.text, c.status)) ∧
    ∀ (md : String), ∀ cd ∈ (parseMarkdownReport md).claims,
      (cd.verified = true ↔ cd.status = "TRUE".data) := by
  obtain ⟨h1, h2, hgood, hd, hc, hne, hdig⟩ := hwf
  have hdata : (String.mk (renderReport expl cs digits)).data =
    renderReport expl cs digits := rfl
  refine ⟨?_, ?_, ?_, ?_⟩
  · rw [parse_summary_eq, hdata, explanationMatch_render expl digits cs h1]
    rfl
  · rw [parse_score_eq, hdata]
    simp [authenticityScore, confidenceMatch_render expl digits cs hc hne hdig]
  · rw [parse_claims_eq, hdata, scanClaims_render expl digits cs h2 hgood hd]
    simp only [List.map_map]
    rfl
  · intro md cd hcd
    rw [parse_claims_eq] at hcd
    rcases List.mem_map.mp hcd with ⟨rc, _, rfl⟩
    simp [mkClaimData]

/-- Witness for C2 at a concrete well-formed report with an explanation,
an 87% confidence score, a TRUE claim and a FALSE claim. -/
theorem claim2_witness :
    (parseMarkdownReport (String.mk (renderReport c2Expl c2Claims c2Digits))).summary =
      some "The clip shows a real event and the caption matches it.".data ∧
    (parseMarkdownReport (String.mk
        (renderReport c2Expl c2Claims c2Digits))).authenticity_score =
      some ((87 : ℚ) / 100) ∧
    (parseMarkdownReport (String.mk (renderReport c2Expl c2Claims c2Digits))).claims.map
        (fun cd => (cd.claim, cd.status)) =
      [("The moon landing happened".data, "TRUE".data),
       ("The clip is AI-generated".data, "FALSE".data)] := by
  have h := claim2_wellformed_report_parse c2Expl c2Digits c2Claims (by decide)
  refine ⟨?_, ?_, ?_⟩
  · rw [h.1]; decide
  · rw [h.2.1]
    have hd : digitsToNat c2Digits = 87 := by decide
    rw [hd]
    norm_num
  · rw [h.2.2.1]; decide

/-- Witness for C9 on an input with none of the expected sections. -/
theorem claim9_witness :
    (parseMarkdownReport "just some prose").summary = none ∧
    (parseMarkdownReport "just some prose").authenticity_score = none ∧
    (parseMarkdownReport "just some prose").sentiment = none ∧
    (parseMarkdownReport "just some prose").claims = [] ∧
    (parseMarkdownReport "just some prose").key_findings = [] ∧
    (parseMarkdownReport "just some prose").allSources = [] := by
  have h := claim9_defaults "just some prose"
  refine ⟨h.1 (by decide), h.2.1 (by decide), h.2.2.1 (by decide),
    h.2.2.2.1 (by decide), (h.2.2.2.2 (by decide) (by decide)).1,
    (h.2.2.2.2 (by decide) (by decide)).2⟩

end Sherlock
